import Mathlib

/-!
Verification of the mkdocs-kustomize plugin (`mkdocs_kustomize/plugin.py`)
against its natural-language specification.

The development shallowly embeds the directive-processing pipeline of
`on_page_markdown` / `replace_match` / `analyze_resources`:

* parsed YAML values are modelled by the inductive `YVal` (PyYAML
  `safe_load` results restricted to strings, integers, booleans, null,
  sequences and string-keyed mappings);
* Python dictionary operations (`get`, `update`, `==`) are modelled by
  executable functions with the Python semantics (including `True == 1`
  and order-insensitive mapping equality);
* the external collaborators (the `kustomize` subprocess, the PyYAML
  parser and dumper, the filesystem) enter as explicit parameters of a
  context structure, so that `replace_match` is a pure function;
* Python exceptions that the source can raise from the modelled code
  paths are made explicit in an `Except PyErr` result.
-/

namespace MkdocsKustomize

/-- Parsed YAML value, the model of what `yaml.safe_load` /
`yaml.safe_load_all` return for the streams this plugin handles:
scalars (string, integer, boolean, null), sequences, and mappings with
string keys kept in insertion order. -/
inductive YVal where
  | null : YVal
  | bool (b : Bool) : YVal
  | int (n : Int) : YVal
  | str (s : String) : YVal
  | list (xs : List YVal) : YVal
  | map (kvs : List (String × YVal)) : YVal

/-- A parsed YAML mapping: association list of string keys to values,
in insertion order (Python `dict` preserves insertion order; keys of a
parsed document are unique). -/
abbrev Doc := List (String × YVal)

/-- Python `d.get(k)` / `d[k]` lookup on a mapping, first matching key. -/
def lookupStr (k : String) : Doc → Option YVal
  | [] => none
  | (k2, v) :: rest => if k2 = k then some v else lookupStr k rest

mutual

/-- Python `==` on parsed YAML values.  Numeric equality identifies
`True` with `1` and `False` with `0` as Python does; mappings compare
by key set and per-key value equality, independent of order. -/
def pyEq : YVal → YVal → Bool
  | .null, .null => true
  | .bool a, .bool b => a == b
  | .bool a, .int n => (if a then (1 : Int) else 0) == n
  | .int n, .bool a => n == (if a then (1 : Int) else 0)
  | .int m, .int n => m == n
  | .str a, .str b => a == b
  | .list xs, .list ys => pyEqList xs ys
  | .map xs, .map ys => xs.length == ys.length && pyEqEntries xs ys
  | _, _ => false

/-- Elementwise Python `==` on sequences. -/
def pyEqList : List YVal → List YVal → Bool
  | [], [] => true
  | x :: xs, y :: ys => pyEq x y && pyEqList xs ys
  | _, _ => false

/-- Every entry of the first mapping is present in the second with an
equal value (with unique keys and equal lengths this is Python dict
equality). -/
def pyEqEntries : List (String × YVal) → List (String × YVal) → Bool
  | [], _ => true
  | (k, v) :: rest, ys =>
    (match lookupStr k ys with
     | some w => pyEq v w
     | none => false) && pyEqEntries rest ys

end

/-- Python `==` on two values that may each be `None` (absent key):
`None == None` is `True`, `None` never equals a present value. -/
def pyEqOpt : Option YVal → Option YVal → Bool
  | none, none => true
  | some a, some b => pyEq a b
  | _, _ => false

/-- Exceptions the embedded code paths can raise. -/
inductive PyErr where
  | attributeError : PyErr
  | typeError : PyErr
  | valueError : PyErr
  | fileNotFoundError : PyErr
  | yamlError : PyErr
deriving DecidableEq, Repr

/-- Embedding of `d.get("metadata", \x7b\x7d).get("name")` (and the same
access for any metadata sub-field with `None` default), from
`plugin.py` lines 422-423: an absent `metadata` key yields the empty
dict, whose `get` returns `None`; a present non-mapping `metadata`
value has no `get` attribute and raises `AttributeError`. -/
def getMetaName (d : Doc) : Except PyErr (Option YVal) :=
  match lookupStr "metadata" d with
  | none => .ok none
  | some (.map m) => .ok (lookupStr "name" m)
  | some _ => .error .attributeError

/-- Embedding of the identity test of `plugin.py` lines 421-423:
`override_yaml.get("kind") == resource.get("kind") and
override_yaml.get("metadata", \x7b\x7d).get("name") ==
resource.get("metadata", \x7b\x7d).get("name")`.  The stream element
`r` may be any YAML value; a non-mapping element has no `get` method,
so the very first access raises `AttributeError`.  The Python `and` operator
short-circuits: when the kinds differ the metadata accesses are never
evaluated. -/
def resourceMatches (ov : Doc) (r : YVal) : Except PyErr Bool :=
  match r with
  | .map rm =>
    if pyEqOpt (lookupStr "kind" ov) (lookupStr "kind" rm) then do
      let a ← getMetaName ov
      let b ← getMetaName rm
      .ok (pyEqOpt a b)
    else .ok false
  | _ => .error .attributeError

/-- Embedding of Python `target.update(override)` on mappings
(`plugin.py` line 425): keys already in the target keep their position
and receive the value from the override; keys only in the override
are appended, in override order. -/
def dictUpdate (d o : Doc) : Doc :=
  d.map (fun kv => match lookupStr kv.1 o with
    | some w => (kv.1, w)
    | none => kv)
  ++ o.filter (fun kv => (lookupStr kv.1 d).isNone)

/-- Embedding of the merge loop of `plugin.py` lines 419-425 at the
parsed-stream level:

    for resource in kustomize_yaml:
        if (override_yaml.get("kind") == resource.get("kind") and
            override_yaml.get("metadata", \x7b\x7d).get("name") ==
            resource.get("metadata", \x7b\x7d).get("name")):
            resource.update(override_yaml)

The loop visits every document of the stream in order and updates each
one whose identity test succeeds (there is no `break`); a raised
exception aborts the whole loop. -/
def mergeStream (stream : List YVal) (ov : Doc) : Except PyErr (List YVal) :=
  match stream with
  | [] => .ok []
  | r :: rest => do
    let m ← resourceMatches ov r
    let r2 := if m then
        (match r with
         | .map rm => YVal.map (dictUpdate rm ov)
         | _ => r)
      else r
    let out ← mergeStream rest ov
    .ok (r2 :: out)

/-- Whitespace characters stripped by the Python `str.strip` method
(space, tab, newline, carriage return, vertical tab, form feed). -/
def isPySpace (c : Char) : Bool :=
  c = ' ' || c = '\t' || c = '\n' || c = '\r' || c = Char.ofNat 11 || c = Char.ofNat 12

/-- Python `str.strip()` on a character list: drop leading and trailing
whitespace. -/
def pyStripChars (cs : List Char) : List Char :=
  ((cs.dropWhile isPySpace).reverse.dropWhile isPySpace).reverse

/-- Python `str.strip()`. -/
def pyStrip (s : String) : String := ⟨pyStripChars s.data⟩

/-- Python `str.lower()` (ASCII case folding suffices for the option
values compared against "true"). -/
def pyLower (s : String) : String := ⟨s.data.map Char.toLower⟩

/-- Python `str.split(sep)` for a one-character separator: splitting
the empty string yields one empty field; every separator occurrence
opens a new field. -/
def pySplit (sep : Char) : List Char → List (List Char)
  | [] => [[]]
  | c :: rest =>
    let r := pySplit sep rest
    if c = sep then [] :: r
    else
      match r with
      | h :: t => (c :: h) :: t
      | [] => [[c]]

/-- Python `str.split(sep, 1)`: split at the first separator occurrence
only; the second component is `none` when the separator is absent
(modelling the `"=" in option` test of `plugin.py` line 363). -/
def pySplitFirst (sep : Char) : List Char → List Char × Option (List Char)
  | [] => ([], none)
  | c :: rest =>
    if c = sep then ([], some rest)
    else
      let r := pySplitFirst sep rest
      (c :: r.1, r.2)

/-- Decimal rendering of a natural number, the model of the Python
f-string interpolation of `resource_index` (`plugin.py` line 531);
accumulator-style digit extraction with structural fuel (the fuel
`n + 1` always suffices, see `natToDecCore_eq_decDigits`). -/
def natToDecCore : Nat → Nat → List Char → List Char
  | 0, _, acc => acc
  | fuel + 1, n, acc =>
    if n < 10 then Char.ofNat (48 + n) :: acc
    else natToDecCore fuel (n / 10) (Char.ofNat (48 + n % 10) :: acc)

/-- Decimal rendering of a natural number as a string. -/
def natToDec (n : Nat) : String := ⟨natToDecCore (n + 1) n []⟩

/-- Non-accumulator decimal digit rendering, used only to reason about
`natToDec`. -/
def decDigits (n : Nat) : List Char :=
  if n < 10 then [Char.ofNat (48 + n)]
  else decDigits (n / 10) ++ [Char.ofNat (48 + n % 10)]
termination_by n
decreasing_by exact Nat.div_lt_self (by omega) (by omega)

/-- Decimal evaluation of a digit string, the left inverse of digit
rendering; used to prove that detail identifiers are unique. -/
def decValAux (a : Nat) : List Char → Nat
  | [] => a
  | c :: rest => decValAux (a * 10 + (c.toNat - 48)) rest

/-- Embedding of one `key=value` or bare-key option of the bracketed
option list, `plugin.py` lines 362-367: with an `=` present the key is
stripped and the stripped, lower-cased value is compared against the
string `true`; a bare key maps to `True`. -/
def parseOption (opt : List Char) : String × Bool :=
  match pySplitFirst '=' opt with
  | (k, some v) => (⟨pyStripChars k⟩, pyLower (pyStrip ⟨v⟩) = "true")
  | (k, none) => (⟨pyStripChars k⟩, true)

/-- Python dict assignment `d[k] = v` on an association list with
insertion-order semantics: an existing key keeps its position and gets
the new value, a new key is appended. -/
def dictSet (d : List (String × Bool)) (k : String) (v : Bool) : List (String × Bool) :=
  if (d.find? (fun kv => kv.1 = k)).isSome then
    d.map (fun kv => if kv.1 = k then (k, v) else kv)
  else d ++ [(k, v)]

/-- Embedding of the options loop of `plugin.py` lines 360-367: the
bracket group (regex group 2), when present, is split on commas and
each piece parsed into the options dict. -/
def parseOptions : Option String → List (String × Bool)
  | none => []
  | some g2 =>
    ((pySplit ',' g2.data).map parseOption).foldl (fun d kv => dictSet d kv.1 kv.2) []

/-- Generic first-match association-list lookup (Python `d.get(k)` for
a string-valued table such as the discovery mapping). -/
def lookupKey (k : String) : List (String × String) → Option String
  | [] => none
  | (k2, v) :: rest => if k2 = k then some v else lookupKey k rest

/-- Python `options.get(key, default)`. -/
def optGet (opts : List (String × Bool)) (k : String) (dflt : Bool) : Bool :=
  match opts.find? (fun kv => kv.1 = k) with
  | some kv => kv.2
  | none => dflt

/-- POSIX `os.path.isabs`: the path starts with a slash. -/
def isAbs (s : String) : Bool :=
  match s.data with
  | c :: _ => c = '/'
  | [] => false

/-- Does the path end with a slash (for `os.path.join`). -/
def endsSlash (s : String) : Bool :=
  match s.data.reverse with
  | c :: _ => c = '/'
  | [] => false

/-- POSIX `os.path.join(base, tok)` for the two-argument uses in the
source: an absolute second component discards the base; otherwise the
components are joined with a single slash. -/
def pyJoin (base tok : String) : String :=
  if isAbs tok then tok
  else if base = "" then tok
  else if endsSlash base then base ++ tok
  else base ++ "/" ++ tok

/-- Embedding of the directory-resolution chain of `replace_match`,
`plugin.py` lines 373-393, in source order: (1) exact lookup in the
auto-discovery mapping; (2) an absolute existing directory is used
as-is; (3) otherwise, when the token is NOT an existing directory, the
configured `kustomize_dirs` roots are probed in order and the first
existing `root/token` wins, else the token is reported unresolvable;
(4) the final `elif` falling through (token is an existing relative
directory) keeps the token as-is.  The error carries the original
(unmodified) token, which the caller interpolates into the inline
error comment. -/
def resolveDir (mapping : List (String × String)) (isDir : String → Bool)
    (roots : List String) (tok : String) : Except String String :=
  match lookupKey tok mapping with
  | some v => .ok v
  | none =>
    if isAbs tok && isDir tok then .ok tok
    else if !(isDir tok) then
      match roots.find? (fun b => isDir (pyJoin b tok)) with
      | some b => .ok (pyJoin b tok)
      | none => .error tok
    else .ok tok

/-- Modelled from the spec wording of section 4.2 (resolution order,
first match wins), for comparison with the source-derived `resolveDir`:
1. exact-key lookup in the discovery table; 2. the token itself if
absolute and an existing directory; 3. the token itself if it is an
existing directory; 4. the first configured root whose join with the
token is an existing directory; 5. otherwise DirectoryNotFound carrying
the token. -/
def resolveDirSpecOrder (mapping : List (String × String)) (isDir : String → Bool)
    (roots : List String) (tok : String) : Except String String :=
  match lookupKey tok mapping with
  | some v => .ok v
  | none =>
    if isAbs tok && isDir tok then .ok tok
    else if isDir tok then .ok tok
    else
      match roots.find? (fun b => isDir (pyJoin b tok)) with
      | some b => .ok (pyJoin b tok)
      | none => .error tok

/-- Single-quote character as a string (used when reproducing string
literals of the source verbatim). -/
def sq : String := String.singleton (Char.ofNat 39)

/-- Embedding of the apiVersion split of `analyze_resources`,
`plugin.py` lines 519-524 and 538.  For a string value: when it
contains a slash, `group, version = api_version.split("/")` succeeds
only with exactly two fields (more slashes raise `ValueError` from
tuple unpacking); line 538 renders `group/version` when the group is
non-empty and non-blank, else just the version.  Without a slash the
bare string is rendered.  For a sequence or mapping the `in` test is
membership; when it succeeds, `.split` is missing and raises
`AttributeError`.  For the remaining scalars `"/" in x` raises
`TypeError`. -/
def apiInfoOf (v : YVal) : Except PyErr YVal :=
  match v with
  | .str s =>
    if s.data.contains '/' then
      match pySplit '/' s.data with
      | [g, ver] =>
        .ok (.str ⟨if !g.isEmpty && !(pyStripChars g).isEmpty then g ++ '/' :: ver else ver⟩)
      | _ => .error .valueError
    else .ok (.str s)
  | .list xs =>
    if xs.any (fun x => pyEq (.str "/") x) then .error .attributeError else .ok (.list xs)
  | .map m =>
    if m.any (fun kv => kv.1 = "/") then .error .attributeError else .ok (.map m)
  | _ => .error .typeError

/-- Embedding of `resource.get("metadata", \x7b\x7d).get(field, "")`
(`plugin.py` lines 527-528): absent metadata gives the empty dict and
hence the empty-string default; a non-mapping metadata value raises
`AttributeError`. -/
def metaField (d : Doc) (field : String) : Except PyErr YVal :=
  match lookupStr "metadata" d with
  | none => .ok (.str "")
  | some (.map m) => .ok ((lookupStr field m).getD (.str ""))
  | some _ => .error .attributeError

/-- Data of one analyzer table row pair (`plugin.py` lines 514-556):
the kind cell value, its API-info sub-label, the name and namespace
cells, and the details-block identifier `resource-N`. -/
structure Row where
  apiInfo : YVal
  kind : YVal
  name : YVal
  nspace : YVal
  detailsId : String

/-- Field extraction for one mapping-typed resource, in source
evaluation order (`plugin.py` lines 519-531): apiVersion split first,
then kind, name, namespace (all with empty-string defaults), then the
details identifier from the current 1-based index. -/
def analyzeRow (idx : Nat) (d : Doc) : Except PyErr Row := do
  let api ← apiInfoOf ((lookupStr "apiVersion" d).getD (.str ""))
  let name ← metaField d "name"
  let nspace ← metaField d "namespace"
  .ok { apiInfo := api
        kind := (lookupStr "kind" d).getD (.str "")
        name := name
        nspace := nspace
        detailsId := "resource-" ++ natToDec idx }

/-- Embedding of the analyzer loop of `plugin.py` lines 512-556:
`resource_index` starts at 1 and is incremented only for mapping-typed
entries (the details identifier is taken from it); non-mapping entries
are skipped by the `continue` without touching the index; a raised
exception aborts the whole analysis.  Each processed resource is kept
with its extracted row data. -/
def analyzeRowsWith : Nat → List YVal → Except PyErr (List (YVal × Row))
  | _, [] => .ok []
  | idx, r :: rest =>
    match r with
    | .map d => do
      let row ← analyzeRow idx d
      let rows ← analyzeRowsWith (idx + 1) rest
      .ok ((r, row) :: rows)
    | _ => analyzeRowsWith idx rest

/-- The analyzer rows for an input sequence, indices starting at 1. -/
def analyzeRows (resources : List YVal) : Except PyErr (List Row) :=
  (analyzeRowsWith 1 resources).map (List.map Prod.snd)

mutual

/-- Python `repr` of a parsed YAML value, as produced by f-string
interpolation of non-string values (string escaping inside `repr` is
not modelled beyond quoting). -/
def pyRepr : YVal → String
  | .null => "None"
  | .bool b => if b then "True" else "False"
  | .int n => toString n
  | .str s => sq ++ s ++ sq
  | .list xs => "[" ++ pyReprList xs ++ "]"
  | .map kvs => "\x7b" ++ pyReprEntries kvs ++ "\x7d"

/-- Comma-separated `repr` of sequence elements. -/
def pyReprList : List YVal → String
  | [] => ""
  | [x] => pyRepr x
  | x :: rest => pyRepr x ++ ", " ++ pyReprList rest

/-- Comma-separated `repr` of mapping entries. -/
def pyReprEntries : List (String × YVal) → String
  | [] => ""
  | [(k, v)] => sq ++ k ++ sq ++ ": " ++ pyRepr v
  | (k, v) :: rest => sq ++ k ++ sq ++ ": " ++ pyRepr v ++ ", " ++ pyReprEntries rest

end

/-- Python `str()` as applied by f-string interpolation: strings embed
verbatim, other values via `repr`-like rendering. -/
def pyFormat : YVal → String
  | .str s => s
  | v => pyRepr v

/-- The HTML for one table row pair, the f-string template of
`plugin.py` lines 539-556 (`dumpOne` stands for `yaml.dump` of the
full resource, an external PyYAML collaborator). -/
def rowHtml (dumpOne : YVal → String) (resource : YVal) (r : Row) : String :=
  "<tr class=" ++ sq ++ "resource-row" ++ sq ++ ">\n" ++
  "  <td>" ++ pyFormat r.kind ++ "<span class=\"resource-api-info\">" ++
    pyFormat r.apiInfo ++ "</span></td>\n" ++
  "  <td title=\"" ++ pyFormat r.name ++ "\">" ++ pyFormat r.name ++ "</td>\n" ++
  "  <td title=\"" ++ pyFormat r.nspace ++ "\">" ++ pyFormat r.nspace ++ "</td>\n" ++
  "  <td><input type=\"checkbox\" id=\"" ++ r.detailsId ++
    "-check\" class=\"k8s-yaml-checkbox\" aria-label=\"Show YAML for " ++
    pyFormat r.kind ++ " " ++ pyFormat r.name ++
    "\" /><label for=\"" ++ r.detailsId ++
    "-check\" class=\"k8s-yaml-toggle\">▼ YAML</label></td>\n" ++
  "</tr>\n" ++
  "<tr id=\"" ++ r.detailsId ++ "-row\" class=\"k8s-yaml-row\" data-yaml-id=\"" ++
    r.detailsId ++ "\">\n" ++
  "  <td colspan=\"4\">\n    <div class=\"resource-details\">\n\n```yaml\n" ++
  dumpOne resource ++ "\n```\n\n    </div>\n  </td>\n</tr>\n"

/-- Stand-in for the cosmetic CSS style block of `plugin.py` lines
461-507 (contents are presentational only and are referenced by no
verified claim). -/
def cssStyle : String := "<style>\n/* resource table styles */\n</style>\n"

/-- Table opening markup of `plugin.py` lines 509-510. -/
def tableOpen : String :=
  "\n<div class=" ++ sq ++ "mkdocs-kustomize-plugin resource-analysis" ++ sq ++
  ">\n<table class=" ++ sq ++ "resource-table" ++ sq ++ ">\n" ++
  "<thead>\n<tr>\n<th>Kind</th>\n<th>Name</th>\n<th>Namespace</th>\n<th>Details</th>\n</tr>\n</thead>\n<tbody>\n"

/-- Stand-in for the closing markup plus the cosmetic toggle CSS and
script of `plugin.py` lines 559-703 (the script is presentational
only and is referenced by no verified claim). -/
def tableClose : String :=
  "</tbody>\n</table>\n</div>\n<style>\n/* toggle styles */\n</style>\n<script>\n/* toggle enhancement */\n</script>\n"

/-- Embedding of `analyze_resources` (`plugin.py` lines 446-705): an
empty (falsy) input list yields the literal notice; otherwise the
style block, the table header, one row pair per mapping-typed entry in
input order, and the closing markup. -/
def analyze_resources (dumpOne : YVal → String) (resources : List YVal) :
    Except PyErr String :=
  if resources.isEmpty then .ok "No resources found."
  else do
    let rows ← analyzeRowsWith 1 resources
    .ok (cssStyle ++ tableOpen ++
      String.join (rows.map (fun pr => rowHtml dumpOne pr.1 pr.2)) ++ tableClose)

/-- The inline error block for an unresolvable directory,
`plugin.py` line 393. -/
def dirErrBlock (tok : String) : String :=
  "```yaml\n# Error: Kustomize directory " ++ sq ++ tok ++ sq ++ " not found\n```"

/-- The inline error block for an override (or stream) that fails to
parse as YAML, `plugin.py` line 430; it carries the exception text and
the raw override content. -/
def parseErrBlock (msg oc : String) : String :=
  "```yaml\n# Error parsing YAML: " ++ msg ++ "\n" ++ oc ++ "\n```"

/-- The fenced YAML block wrapping of `plugin.py` line 438. -/
def yamlBlock (out : String) : String := "```yaml\n" ++ out ++ "\n```"

/-- Result of invoking the external `kustomize build` subprocess with
`check=True, text=True` (`plugin.py` lines 397-403): captured stdout
on success; `CalledProcessError` carrying a text stderr on non-zero
exit; `FileNotFoundError` when the tool is missing. -/
inductive BuildOutcome where
  | ok (stdout : String) : BuildOutcome
  | calledProcessError (stderr : String) : BuildOutcome
  | fileNotFound : BuildOutcome

/-- The external collaborators of `replace_match`, passed explicitly:
the auto-discovery mapping, the filesystem directory test, the
configured `kustomize_dirs` roots, the builder subprocess, and the
PyYAML parse/dump functions. -/
structure BuildCtx where
  mapping : List (String × String)
  isDir : String → Bool
  roots : List String
  build : String → BuildOutcome
  parseAll : String → Except String (List YVal)
  parseOne : String → Except String YVal
  dumpAll : List YVal → String
  dumpOne : YVal → String

/-- The analysis branch of `replace_match`, `plugin.py` lines 433-436:
the resource table prefixed by the section heading. -/
def analysisResult (ctx : BuildCtx) (docs : List YVal) : Except PyErr String := do
  let table ← analyze_resources ctx.dumpOne docs
  .ok ("## Resources Analysis\n\n" ++ table)

/-- Embedding of `replace_match` (`plugin.py` lines 358-441) for one
regex match with groups `g1` (path token), `g2` (optional bracket
list) and `g3` (body).  Faithful points to note:

* the `except subprocess.SubprocessError` handler at lines 439-441
  calls `e.stderr.decode("utf-8")`; with `text=True` the captured
  stderr of a `CalledProcessError` is already `str`, which has no
  `decode` method, so the handler itself raises `AttributeError`,
  which nothing catches;
* `FileNotFoundError` (builder executable missing) is not a
  `subprocess.SubprocessError`, so it escapes the `try` entirely;
* `yaml.YAMLError` is caught (lines 429-430) only around the merge
  block; the `yaml.safe_load_all` call of the analysis branch at line
  434 runs outside that handler, so a parse failure there escapes;
* the merge runs only when the parsed override is a non-empty mapping
  (line 416), and only then is the stream re-serialized; otherwise the
  raw builder stdout is kept;
* the analysis branch reuses the parsed (and possibly merged) stream
  when the override path bound `kustomize_yaml`, else parses stdout. -/
def replace_match (ctx : BuildCtx) (g1 : String) (g2 : Option String) (g3 : String) :
    Except PyErr String :=
  let tok := pyStrip g1
  let options := parseOptions g2
  let override_content := pyStrip g3
  let analyzeFlag := optGet options "analyze" false
  match resolveDir ctx.mapping ctx.isDir ctx.roots tok with
  | .error orig => .ok (dirErrBlock orig)
  | .ok dir =>
    match ctx.build dir with
    | .fileNotFound => .error .fileNotFoundError
    | .calledProcessError _ => .error .attributeError
    | .ok out0 =>
      if override_content = "" then
        if analyzeFlag then
          match ctx.parseAll out0 with
          | .error _ => .error .yamlError
          | .ok docs => analysisResult ctx docs
        else .ok (yamlBlock out0)
      else
        match ctx.parseAll out0 with
        | .error msg => .ok (parseErrBlock msg override_content)
        | .ok docs =>
          match ctx.parseOne override_content with
          | .error msg => .ok (parseErrBlock msg override_content)
          | .ok ovVal =>
            match ovVal with
            | .map m =>
              if m.isEmpty then
                if analyzeFlag then analysisResult ctx docs else .ok (yamlBlock out0)
              else
                match mergeStream docs m with
                | .error e => .error e
                | .ok merged =>
                  if analyzeFlag then analysisResult ctx merged
                  else .ok (yamlBlock (ctx.dumpAll merged))
            | _ =>
              if analyzeFlag then analysisResult ctx docs else .ok (yamlBlock out0)

/-- Backtick character. -/
def btick : Char := Char.ofNat 96

/-- The closing fence sequence of the directive pattern
(`plugin.py` line 356): three backticks. -/
def fence : List Char := [btick, btick, btick]

/-- Does the text begin with the closing fence sequence. -/
def isFenceStart : List Char → Bool
  | c1 :: c2 :: c3 :: _ => c1 = btick && c2 = btick && c3 = btick
  | _ => false

/-- Embedding of the non-greedy body match of the directive pattern of
`plugin.py` line 356: with `re.DOTALL`, the lazy group in
(body)(closing fence) consumes, from the character after the first
newline of the directive, the shortest prefix that is immediately
followed by the closing fence.  The result is the matched body and
the text after the closing fence (which stays outside the matched
span). -/
def matchBodyLazy : List Char → Option (List Char × List Char)
  | [] => none
  | c :: rest =>
    if isFenceStart (c :: rest) then some ([], rest.drop 2)
    else
      match matchBodyLazy rest with
      | some (b, r) => some (c :: b, r)
      | none => none

/-- Is the value a YAML mapping (Python `isinstance(x, dict)`). -/
def isMapYVal : YVal → Bool
  | .map _ => true
  | _ => false

/-- The ConfigMap document of the specification scenario in section 8,
as a mapping: a ConfigMap named `cm` with data keys `k: old`, `j: 1`. -/
def cmDocData : Doc := [("apiVersion", .str "v1"), ("kind", .str "ConfigMap"),
  ("metadata", .map [("name", .str "cm")]),
  ("data", .map [("k", .str "old"), ("j", .int 1)])]

/-- The ConfigMap document as a YAML value. -/
def cmDoc : YVal := .map cmDocData

/-- The override document of the specification scenario: same identity
as `cmDoc`, with `data` holding only `k: new`. -/
def cmOverride : Doc := [("kind", .str "ConfigMap"),
  ("metadata", .map [("name", .str "cm")]),
  ("data", .map [("k", .str "new")])]

/-- The expected merge result for `cmDoc` under `cmOverride`: the whole
`data` field replaced, `j` lost. -/
def cmMerged : YVal := .map [("apiVersion", .str "v1"), ("kind", .str "ConfigMap"),
  ("metadata", .map [("name", .str "cm")]),
  ("data", .map [("k", .str "new")])]

/-- A Service document whose identity differs from the override. -/
def svcDoc : YVal := .map [("apiVersion", .str "v1"), ("kind", .str "Service"),
  ("metadata", .map [("name", .str "svc")])]

/-- The builder stdout of the specification scenario in section 8. -/
def cmStdout : String := "apiVersion: v1\nkind: ConfigMap\nmetadata:\n  name: cm"

/-- Concrete context where every path is a directory and the builder
succeeds with the scenario output. -/
def okCtx : BuildCtx :=
  { mapping := [], isDir := fun _ => true, roots := [],
    build := fun _ => .ok cmStdout,
    parseAll := fun _ => .ok [cmDoc],
    parseOne := fun _ => .ok (.map cmOverride),
    dumpAll := fun _ => "DUMPED", dumpOne := fun _ => "" }

/-- Concrete context where the builder exits non-zero
(`CalledProcessError` with text stderr). -/
def buildFailCtx : BuildCtx :=
  { okCtx with build := fun _ => .calledProcessError "evalsymlink failure" }

/-- Concrete context where the builder executable is missing
(`FileNotFoundError` from `subprocess.run`). -/
def buildMissingCtx : BuildCtx :=
  { okCtx with build := fun _ => .fileNotFound }

/-- Concrete context whose built stream parses to one Service document
(no document matches `cmOverride`). -/
def svcCtx : BuildCtx :=
  { okCtx with parseAll := fun _ => .ok [svcDoc] }

/-- Concrete context with an empty filesystem: no path is a directory,
two configured search roots. -/
def emptyFsCtx : BuildCtx :=
  { okCtx with isDir := fun _ => false, roots := ["/roots/a", "/roots/b"] }

/-! ## Helper lemmas: decimal rendering -/

/-- The fuel-bounded digit extraction agrees with the non-accumulator
rendering when the fuel bounds the number of digits. -/
theorem natToDecCore_eq_decDigits (fuel : Nat) :
    ∀ n acc, 1 ≤ fuel → n < 10 ^ fuel →
      natToDecCore fuel n acc = decDigits n ++ acc := by
  induction fuel with
  | zero => intro n acc h _; omega
  | succ f ih =>
    intro n acc _ hn
    by_cases h10 : n < 10
    · rw [natToDecCore, if_pos h10, decDigits, if_pos h10]
      rfl
    · rw [natToDecCore, if_neg h10, decDigits, if_neg h10]
      have hf : 1 ≤ f := by
        rcases Nat.eq_zero_or_pos f with hf0 | hf0
        · subst hf0; simp at hn; omega
        · exact hf0
      have hdiv : n / 10 < 10 ^ f := by
        have hpow : (10 : Nat) ^ (f + 1) = 10 ^ f * 10 := by ring
        rw [Nat.div_lt_iff_lt_mul (by omega)]
        omega
      rw [ih (n / 10) (Char.ofNat (48 + n % 10) :: acc) hf hdiv]
      simp

/-- Accumulated decimal evaluation distributes over append. -/
theorem decValAux_append (xs ys : List Char) :
    ∀ a, decValAux a (xs ++ ys) = decValAux (decValAux a xs) ys := by
  induction xs with
  | nil => intro a; rfl
  | cons c rest ih =>
    intro a
    rw [List.cons_append]
    rw [show decValAux a (c :: (rest ++ ys)) = decValAux (a * 10 + (c.toNat - 48)) (rest ++ ys) from rfl]
    rw [show decValAux a (c :: rest) = decValAux (a * 10 + (c.toNat - 48)) rest from rfl]
    exact ih _

/-- Round trip through a digit character. -/
theorem char_digit_toNat (n : Nat) (h : n < 10) :
    (Char.ofNat (48 + n)).toNat = 48 + n := by
  have hv : (48 + n).isValidChar := Or.inl (by omega)
  rw [Char.ofNat, dif_pos hv]
  rfl

/-- Decimal evaluation is a left inverse of digit rendering. -/
theorem decVal_decDigits (n : Nat) : decValAux 0 (decDigits n) = n := by
  induction n using Nat.strong_induction_on with
  | _ n ih =>
    by_cases h10 : n < 10
    · rw [decDigits, if_pos h10]
      have h1 : decValAux 0 [Char.ofNat (48 + n)] =
          0 * 10 + ((Char.ofNat (48 + n)).toNat - 48) := rfl
      rw [h1, char_digit_toNat n h10]
      omega
    · rw [decDigits, if_neg h10]
      rw [decValAux_append]
      rw [ih (n / 10) (Nat.div_lt_self (by omega) (by omega))]
      have hm : n % 10 < 10 := Nat.mod_lt n (by omega)
      have h2 : decValAux (n / 10) [Char.ofNat (48 + n % 10)] =
          (n / 10) * 10 + ((Char.ofNat (48 + n % 10)).toNat - 48) := rfl
      rw [h2, char_digit_toNat (n % 10) hm]
      omega

/-- The decimal rendering is injective. -/
theorem natToDec_inj : Function.Injective natToDec := by
  intro m n h
  have hfuel : ∀ k : Nat, k < 10 ^ (k + 1) := by
    intro k
    have h1 : k < 10 ^ k := Nat.lt_pow_self (by omega) k
    have h2 : (10 : Nat) ^ k ≤ 10 ^ (k + 1) := Nat.pow_le_pow_right (by omega) (by omega)
    omega
  have hm : natToDec m = ⟨decDigits m⟩ := by
    rw [natToDec, natToDecCore_eq_decDigits (m + 1) m [] (by omega) (hfuel m)]
    simp
  have hn : natToDec n = ⟨decDigits n⟩ := by
    rw [natToDec, natToDecCore_eq_decDigits (n + 1) n [] (by omega) (hfuel n)]
    simp
  rw [hm, hn] at h
  have hdata : decDigits m = decDigits n := congrArg String.data h
  have := congrArg (decValAux 0) hdata
  rwa [decVal_decDigits, decVal_decDigits] at this

/-- The detail-identifier rendering is injective. -/
theorem resourceId_inj :
    Function.Injective (fun i => "resource-" ++ natToDec (1 + i)) := by
  intro a b h
  simp only at h
  have hdata := congrArg String.data h
  rw [String.data_append, String.data_append] at hdata
  have htail := List.append_cancel_left hdata
  have hstr : natToDec (1 + a) = natToDec (1 + b) := by
    apply String.ext
    exact htail
  have := natToDec_inj hstr
  omega

/-! ## Helper lemmas: the analyzer loop -/

/-- A successful row extraction stamps the row with the current index. -/
theorem analyzeRow_detailsId (idx : Nat) (d : Doc) (row : Row)
    (h : analyzeRow idx d = .ok row) :
    row.detailsId = "resource-" ++ natToDec idx := by
  unfold analyzeRow at h
  cases hapi : apiInfoOf ((lookupStr "apiVersion" d).getD (.str "")) with
  | error e => rw [hapi] at h; simp [Bind.bind, Except.bind] at h
  | ok api =>
    rw [hapi] at h
    cases hname : metaField d "name" with
    | error e => rw [hname] at h; simp [Bind.bind, Except.bind] at h
    | ok nm =>
      rw [hname] at h
      cases hns : metaField d "namespace" with
      | error e => rw [hns] at h; simp [Bind.bind, Except.bind] at h
      | ok ns =>
        rw [hns] at h
        simp [Bind.bind, Except.bind, Except.ok.injEq] at h
        rw [← h]

/-- Shape of a successful analyzer run: one row per mapping-typed
entry, identifiers consecutive from the starting index. -/
theorem analyzeRowsWith_spec (res : List YVal) : ∀ idx prs,
    analyzeRowsWith idx res = .ok prs →
    prs.length = res.countP isMapYVal ∧
    prs.map (fun pr => pr.2.detailsId) =
      (List.range prs.length).map (fun i => "resource-" ++ natToDec (idx + i)) := by
  induction res with
  | nil =>
    intro idx prs h
    simp [analyzeRowsWith] at h
    subst h
    simp
  | cons r rest ih =>
    intro idx prs h
    cases r with
    | map d =>
      simp only [analyzeRowsWith] at h
      cases hrow : analyzeRow idx d with
      | error e => rw [hrow] at h; simp [Bind.bind, Except.bind] at h
      | ok row =>
        rw [hrow] at h
        cases hrest : analyzeRowsWith (idx + 1) rest with
        | error e => rw [hrest] at h; simp [Bind.bind, Except.bind] at h
        | ok prs2 =>
          rw [hrest] at h
          simp only [Bind.bind, Except.bind, Except.ok.injEq] at h
          subst h
          obtain ⟨hlen, hids⟩ := ih (idx + 1) prs2 hrest
          refine ⟨by simp [List.countP_cons, isMapYVal, hlen], ?_⟩
          simp only [List.map_cons, hids, analyzeRow_detailsId idx d row hrow,
            List.length_cons]
          rw [List.range_succ_eq_map]
          simp only [List.map_cons, List.map_map]
          refine congrArg (fun l => ("resource-" ++ natToDec idx) :: l) ?_
          apply List.map_congr_left
          intro i _
          simp only [Function.comp]
          refine congrArg (fun k => "resource-" ++ natToDec k) ?_
          omega
    | null =>
      simp only [analyzeRowsWith] at h
      have := ih idx prs h
      simpa [List.countP_cons, isMapYVal] using this
    | bool b =>
      simp only [analyzeRowsWith] at h
      have := ih idx prs h
      simpa [List.countP_cons, isMapYVal] using this
    | int n =>
      simp only [analyzeRowsWith] at h
      have := ih idx prs h
      simpa [List.countP_cons, isMapYVal] using this
    | str s =>
      simp only [analyzeRowsWith] at h
      have := ih idx prs h
      simpa [List.countP_cons, isMapYVal] using this
    | list xs =>
      simp only [analyzeRowsWith] at h
      have := ih idx prs h
      simpa [List.countP_cons, isMapYVal] using this

/-- C7: for every input sequence the analyzer emits exactly one row
pair per mapping-typed entry, in input order; non-mapping entries are
skipped silently, without error and without shifting the identifiers
of other rows; the n-th emitted row (1-based among processed entries)
carries detail identifier `resource-n`, and all detail identifiers of
a single render are distinct. -/
theorem analyzer_row_identifiers :
    (∀ resources rows, analyzeRows resources = .ok rows →
      rows.length = resources.countP isMapYVal ∧
      rows.map Row.detailsId =
        (List.range rows.length).map (fun i => "resource-" ++ natToDec (1 + i)) ∧
      (rows.map Row.detailsId).Nodup) ∧
    (∀ idx v rest, isMapYVal v = false →
      analyzeRowsWith idx (v :: rest) = analyzeRowsWith idx rest) := by
  constructor
  · intro resources rows h
    simp only [analyzeRows] at h
    cases hw : analyzeRowsWith 1 resources with
    | error e => rw [hw] at h; simp [Except.map] at h
    | ok prs =>
      rw [hw] at h
      simp only [Except.map, Except.ok.injEq] at h
      subst h
      obtain ⟨hlen, hids⟩ := analyzeRowsWith_spec resources 1 prs hw
      have hmap : (prs.map Prod.snd).map Row.detailsId =
          prs.map (fun pr => pr.2.detailsId) := by
        simp [List.map_map, Function.comp]
      have hlen2 : (prs.map Prod.snd).length = prs.length := by simp
      refine ⟨by simp [hlen], ?_, ?_⟩
      · rw [hmap, hlen2, hids]
      · rw [hmap, hids]
        have : ((List.range prs.length).map
            (fun i => "resource-" ++ natToDec (1 + i))).Nodup :=
          (List.nodup_range prs.length).map resourceId_inj
        exact this
  · intro idx v rest hv
    cases v with
    | map d => simp [isMapYVal] at hv
    | null => rfl
    | bool b => rfl
    | int n => rfl
    | str s => rfl
    | list xs => rfl

/-! ## Helper lemmas: the merge loop -/

/-- A stream in which no document passes the identity test is returned
unchanged by the merge loop. -/
theorem mergeStream_nomatch (ov : Doc) : ∀ stream,
    (∀ r ∈ stream, resourceMatches ov r = .ok false) →
    mergeStream stream ov = .ok stream := by
  intro stream
  induction stream with
  | nil => intro _; rfl
  | cons r rest ih =>
    intro h
    have hr := h r (List.mem_cons_self r rest)
    have hrest := ih (fun x hx => h x (List.mem_cons_of_mem r hx))
    simp only [mergeStream]
    rw [hr, hrest]
    simp [Bind.bind, Except.bind]

/-- Prepending non-matching documents preserves a successful merge. -/
theorem mergeStream_append_nomatch (ov : Doc) (pre : List YVal)
    (h : ∀ r ∈ pre, resourceMatches ov r = .ok false) :
    ∀ rest out2, mergeStream rest ov = .ok out2 →
    mergeStream (pre ++ rest) ov = .ok (pre ++ out2) := by
  induction pre with
  | nil => intro rest out2 hr; simpa using hr
  | cons r pre2 ih =>
    intro rest out2 hr
    have hhead := h r (List.mem_cons_self r pre2)
    have htail := ih (fun x hx => h x (List.mem_cons_of_mem r hx)) rest out2 hr
    simp only [List.cons_append, mergeStream]
    simp only [List.append_eq]
    rw [hhead, htail]
    simp [Bind.bind, Except.bind]

/-- Lookup over an appended association list. -/
theorem lookupStr_append (k : String) (xs ys : Doc) :
    lookupStr k (xs ++ ys) =
      match lookupStr k xs with
      | some v => some v
      | none => lookupStr k ys := by
  induction xs with
  | nil => simp [lookupStr]
  | cons kv rest ih =>
    obtain ⟨k2, v2⟩ := kv
    by_cases hk : k2 = k
    · subst hk
      simp [lookupStr]
    · simp only [List.cons_append, lookupStr, if_neg hk]
      exact ih

/-- Lookup over the mapped (replacement) part of `dictUpdate`. -/
theorem lookupStr_updateMap (k : String) (d o : Doc) :
    lookupStr k (d.map (fun kv =>
      match lookupStr kv.1 o with
      | some w => (kv.1, w)
      | none => kv)) =
      match lookupStr k d with
      | some v => some (match lookupStr k o with
        | some w => w
        | none => v)
      | none => none := by
  induction d with
  | nil => simp [lookupStr]
  | cons kv rest ih =>
    obtain ⟨k2, v2⟩ := kv
    by_cases hk : k2 = k
    · subst hk
      cases ho : lookupStr k2 o with
      | none => simp [lookupStr, ho]
      | some w => simp [lookupStr, ho]
    · cases ho : lookupStr k2 o with
      | none =>
        simp only [List.map_cons, ho, lookupStr, if_neg hk]
        exact ih
      | some w =>
        simp only [List.map_cons, ho, lookupStr, if_neg hk]
        exact ih

/-- Lookup over the filtered (addition) part of `dictUpdate`. -/
theorem lookupStr_updateFilter (k : String) (d o : Doc) :
    lookupStr k (o.filter (fun kv => (lookupStr kv.1 d).isNone)) =
      if (lookupStr k d).isNone then lookupStr k o else none := by
  induction o with
  | nil => simp [lookupStr]
  | cons kv rest ih =>
    obtain ⟨k2, v2⟩ := kv
    by_cases hk : k2 = k
    · subst hk
      cases hd : lookupStr k2 d with
      | none => simp [List.filter_cons, hd, lookupStr, ih]
      | some w => simp [List.filter_cons, hd, lookupStr, ih]
    · cases hd2 : lookupStr k2 d with
      | none => simp [List.filter_cons, hd2, lookupStr, hk, ih]
      | some w => simp [List.filter_cons, hd2, lookupStr, hk, ih]

/-- The lookup characterisation of the shallow merge: keys present in
the override take the override value whole, keys only in the target
survive, keys in neither are absent. -/
theorem lookupStr_dictUpdate (k : String) (d o : Doc) :
    lookupStr k (dictUpdate d o) =
      match lookupStr k o with
      | some w => some w
      | none => lookupStr k d := by
  unfold dictUpdate
  rw [lookupStr_append, lookupStr_updateMap, lookupStr_updateFilter]
  cases hd : lookupStr k d with
  | some v =>
    cases ho : lookupStr k o with
    | some w => simp
    | none => simp
  | none =>
    cases ho : lookupStr k o with
    | some w => simp
    | none => simp

/-! ## Claim theorems: the override merge -/

/-- C1 counterexample: a stream holding two documents with the same
(kind, metadata.name) identity has BOTH documents mutated by the merge
loop (there is no `break` in the loop of lines 419-425), so the later
matching document is not left unchanged. -/
theorem merge_first_match_only_counterexample :
    mergeStream [cmDoc, cmDoc] cmOverride = .ok [cmMerged, cmMerged] ∧
    cmMerged ≠ cmDoc := by
  refine ⟨rfl, ?_⟩
  intro h
  simp [cmMerged, cmDoc, cmDocData] at h

/-- C1 (amended): for every built stream and override mapping, the
merge mutates EVERY document whose (kind, metadata.name) identity
matches the override, in stream order, applying the shallow top-level
update to each; each document that does not match is left unchanged. -/
theorem merge_updates_every_match :
    ∀ stream ov out, mergeStream stream ov = .ok out →
    List.Forall₂ (fun r r2 =>
      (resourceMatches ov r = .ok true ∧
        ∃ rm, r = YVal.map rm ∧ r2 = YVal.map (dictUpdate rm ov)) ∨
      (resourceMatches ov r = .ok false ∧ r2 = r)) stream out := by
  intro stream
  induction stream with
  | nil =>
    intro ov out h
    simp only [mergeStream] at h
    cases h
    exact .nil
  | cons r rest ih =>
    intro ov out h
    simp only [mergeStream] at h
    cases hm : resourceMatches ov r with
    | error e => rw [hm] at h; simp [Bind.bind, Except.bind] at h
    | ok b =>
      rw [hm] at h
      cases hrest : mergeStream rest ov with
      | error e => rw [hrest] at h; simp [Bind.bind, Except.bind] at h
      | ok out2 =>
        rw [hrest] at h
        simp only [Bind.bind, Except.bind, Except.ok.injEq] at h
        subst h
        cases b with
        | false =>
          refine List.Forall₂.cons (Or.inr ⟨hm, ?_⟩) (ih ov out2 hrest)
          simp
        | true =>
          cases r with
          | map rm =>
            refine List.Forall₂.cons (Or.inl ⟨hm, rm, rfl, ?_⟩) (ih ov out2 hrest)
            simp
          | null => simp [resourceMatches] at hm
          | bool b2 => simp [resourceMatches] at hm
          | int n => simp [resourceMatches] at hm
          | str s => simp [resourceMatches] at hm
          | list xs => simp [resourceMatches] at hm

/-- C5: an override mapping whose identity matches no stream document
leaves the parsed stream unchanged (document count and order
preserved), and the directive replacement is then the re-serialized
(dumped) parsed stream wrapped in a YAML block. -/
theorem merge_nomatch_noop :
    (∀ ov stream, (∀ r ∈ stream, resourceMatches ov r = .ok false) →
      mergeStream stream ov = .ok stream) ∧
    (∀ ctx g1 g2 g3 dir out0 stream m,
      resolveDir ctx.mapping ctx.isDir ctx.roots (pyStrip g1) = .ok dir →
      ctx.build dir = .ok out0 →
      pyStrip g3 ≠ "" →
      ctx.parseAll out0 = .ok stream →
      ctx.parseOne (pyStrip g3) = .ok (.map m) →
      m.isEmpty = false →
      optGet (parseOptions g2) "analyze" false = false →
      (∀ r ∈ stream, resourceMatches m r = .ok false) →
      replace_match ctx g1 g2 g3 = .ok (yamlBlock (ctx.dumpAll stream))) := by
  constructor
  · intro ov stream h
    exact mergeStream_nomatch ov stream h
  · intro ctx g1 g2 g3 dir out0 stream m hres hbuild hg3 hpa hpo hm hflag hnm
    simp only [replace_match, hres, hbuild, hpa, hpo, hm, hflag,
      mergeStream_nomatch m stream hnm]
    rw [if_neg hg3]
    simp

/-- C6: when the override matches exactly one stream document, that
document receives the shallow top-level update (override keys replace
whole fields, target-only keys survive), siblings are untouched, and
document count and order are preserved. -/
theorem merge_single_match_shallow :
    ∀ ov pre dm post,
    (∀ r ∈ pre, resourceMatches ov r = .ok false) →
    (∀ r ∈ post, resourceMatches ov r = .ok false) →
    resourceMatches ov (YVal.map dm) = .ok true →
    mergeStream (pre ++ YVal.map dm :: post) ov =
      .ok (pre ++ YVal.map (dictUpdate dm ov) :: post) ∧
    (∀ k, lookupStr k (dictUpdate dm ov) =
      match lookupStr k ov with
      | some w => some w
      | none => lookupStr k dm) ∧
    (pre ++ YVal.map (dictUpdate dm ov) :: post).length =
      (pre ++ YVal.map dm :: post).length := by
  intro ov pre dm post hpre hpost hmatch
  refine ⟨?_, fun k => lookupStr_dictUpdate k dm ov, by simp⟩
  have hrest : mergeStream (YVal.map dm :: post) ov =
      .ok (YVal.map (dictUpdate dm ov) :: post) := by
    simp only [mergeStream]
    rw [hmatch, mergeStream_nomatch ov post hpost]
    simp [Bind.bind, Except.bind]
  exact mergeStream_append_nomatch ov pre hpre _ _ hrest

/-- C9: the identity comparison defaults absent fields to None on both
sides, so an override without a `metadata` key matches any stream
document of the same kind whose `metadata.name` is likewise absent,
and the merge is applied to such a document. -/
theorem absent_identity_matches :
    ∀ ov dm,
    lookupStr "metadata" ov = none →
    getMetaName dm = .ok none →
    pyEqOpt (lookupStr "kind" ov) (lookupStr "kind" dm) = true →
    resourceMatches ov (YVal.map dm) = .ok true ∧
    (∀ rest out, mergeStream (YVal.map dm :: rest) ov = .ok out →
      out.head? = some (YVal.map (dictUpdate dm ov))) := by
  intro ov dm hov hdm hkind
  have hovmeta : getMetaName ov = .ok none := by
    simp [getMetaName, hov]
  have h1 : resourceMatches ov (YVal.map dm) = .ok true := by
    simp only [resourceMatches]
    rw [hkind]
    rw [hovmeta, hdm]
    simp [Bind.bind, Except.bind, pyEqOpt]
  refine ⟨h1, ?_⟩
  intro rest out h
  simp only [mergeStream] at h
  rw [h1] at h
  cases hrest : mergeStream rest ov with
  | error e => rw [hrest] at h; simp [Bind.bind, Except.bind] at h
  | ok out2 =>
    rw [hrest] at h
    simp only [Bind.bind, Except.bind, Except.ok.injEq] at h
    subst h
    simp

/-! ## Claim theorems: error handling and resolution -/

/-- C2 (code bug): builder failures are NOT contained to the directive.
When the builder exits non-zero, the `except subprocess.SubprocessError`
handler calls `e.stderr.decode("utf-8")` on a `str` (the run uses
`text=True`), raising `AttributeError`, which nothing catches; when the
builder executable is missing, `FileNotFoundError` is not a
`SubprocessError` and escapes the handler entirely.  Both exceptions
escape `replace_match` instead of producing the inline error block. -/
theorem builder_failure_exception_escapes :
    replace_match buildFailCtx "app" none "" = .error .attributeError ∧
    replace_match buildMissingCtx "app" none "" = .error .fileNotFoundError :=
  ⟨rfl, rfl⟩

/-- C3: directory resolution follows exactly the five-step first-match
order of the specification (discovery table, absolute existing
directory, existing directory from the working context, configured
roots in order, failure), and an unresolvable token produces the
inline error comment naming the original, unmodified token. -/
theorem resolution_order :
    (∀ mapping isDir roots tok,
      resolveDir mapping isDir roots tok =
        resolveDirSpecOrder mapping isDir roots tok) ∧
    (∀ ctx g1 g2 g3 t,
      resolveDir ctx.mapping ctx.isDir ctx.roots (pyStrip g1) = .error t →
      t = pyStrip g1 ∧
      replace_match ctx g1 g2 g3 = .ok (dirErrBlock (pyStrip g1))) := by
  constructor
  · intro mapping isDir roots tok
    unfold resolveDir resolveDirSpecOrder
    cases lookupKey tok mapping with
    | some v => rfl
    | none =>
      by_cases h1 : (isAbs tok && isDir tok) = true
      · simp [h1]
      · by_cases h2 : isDir tok = true
        · simp [h1, h2]
        · simp [h1, h2]
  · intro ctx g1 g2 g3 t h
    have ht : t = pyStrip g1 := by
      unfold resolveDir at h
      cases hk : lookupKey (pyStrip g1) ctx.mapping with
      | some v => rw [hk] at h; simp at h
      | none =>
        rw [hk] at h
        by_cases h1 : (isAbs (pyStrip g1) && ctx.isDir (pyStrip g1)) = true
        · rw [if_pos h1] at h; simp at h
        · rw [if_neg h1] at h
          by_cases h2 : (!ctx.isDir (pyStrip g1)) = true
          · rw [if_pos h2] at h
            cases hf : ctx.roots.find? (fun b => ctx.isDir (pyJoin b (pyStrip g1))) with
            | some b => rw [hf] at h; simp at h
            | none =>
              rw [hf] at h
              cases h
              rfl
          · rw [if_neg h2] at h; simp at h
    subst ht
    simp only [replace_match, h]
    simp

/-- C4: with an empty override body and the analyze option unset, the
directive replacement is exactly the raw builder stdout wrapped in a
fenced YAML block, with no parsing or re-serialization. -/
theorem no_override_no_analyze_identity :
    ∀ ctx g1 g2 g3 dir out0,
    pyStrip g3 = "" →
    optGet (parseOptions g2) "analyze" false = false →
    resolveDir ctx.mapping ctx.isDir ctx.roots (pyStrip g1) = .ok dir →
    ctx.build dir = .ok out0 →
    replace_match ctx g1 g2 g3 = .ok ("```yaml\n" ++ out0 ++ "\n```") := by
  intro ctx g1 g2 g3 dir out0 h3 hflag hres hbuild
  simp only [replace_match, hres, hbuild, hflag, h3]
  simp [yamlBlock]

/-! ## Helper lemmas: Python split -/

/-- The Python split never returns an empty field list. -/
theorem pySplit_ne_nil (sep : Char) : ∀ cs, pySplit sep cs ≠ [] := by
  intro cs
  cases cs with
  | nil => simp [pySplit]
  | cons c rest =>
    simp only [pySplit]
    by_cases h : c = sep
    · simp [h]
    · simp only [if_neg h]
      cases hr : pySplit sep rest with
      | nil => simp
      | cons a t => simp

/-- Splitting a string that starts with a separator-free prefix
followed by the separator yields that prefix as the first field. -/
theorem pySplit_sep_cons (sep : Char) : ∀ g rest, g.contains sep = false →
    pySplit sep (g ++ sep :: rest) = g :: pySplit sep rest := by
  intro g
  induction g with
  | nil =>
    intro rest _
    simp [pySplit]
  | cons c g2 ih =>
    intro rest h
    simp only [List.contains_cons, Bool.or_eq_false_iff] at h
    obtain ⟨hc, hg⟩ := h
    have hcne : ¬(c = sep) := Ne.symm (by simpa using hc)
    simp only [List.cons_append, pySplit, if_neg hcne]
    simp only [List.append_eq]
    rw [ih rest hg]

/-- Splitting a separator-free string yields a single field. -/
theorem pySplit_no_sep (sep : Char) : ∀ v, v.contains sep = false →
    pySplit sep v = [v] := by
  intro v
  induction v with
  | nil => intro _; rfl
  | cons c v2 ih =>
    intro h
    simp only [List.contains_cons, Bool.or_eq_false_iff] at h
    obtain ⟨hc, hv⟩ := h
    have hcne : ¬(c = sep) := Ne.symm (by simpa using hc)
    simp only [pySplit, if_neg hcne]
    rw [ih hv]

/-- A string containing the separator splits into at least two fields. -/
theorem pySplit_two_of_contains (sep : Char) : ∀ rest,
    rest.contains sep = true → ∃ a b t, pySplit sep rest = a :: b :: t := by
  intro rest
  induction rest with
  | nil => intro h; simp at h
  | cons c r2 ih =>
    intro h
    by_cases hc : c = sep
    · cases hr : pySplit sep r2 with
      | nil => exact absurd hr (pySplit_ne_nil sep r2)
      | cons b t =>
        refine ⟨[], b, t, ?_⟩
        simp [pySplit, hc, hr]
    · simp only [List.contains_cons] at h
      have hcb : (sep == c) = false := by
        simp
        intro hy
        exact hc hy.symm
      rw [hcb] at h
      simp only [Bool.false_or] at h
      obtain ⟨a, b, t, hab⟩ := ih h
      refine ⟨c :: a, b, t, ?_⟩
      simp [pySplit, hc, hab]

/-- The separator is found in a prefix-separator-suffix composite. -/
theorem contains_append_sep (sep : Char) : ∀ g v : List Char,
    (g ++ sep :: v).contains sep = true := by
  intro g v
  induction g with
  | nil => simp [List.contains_cons]
  | cons c g2 ih => simp [List.contains_cons, ih]

/-! ## Claim theorems: the API-info sub-label -/

/-- C8 counterexample: the apiVersion string `/v1` contains a slash,
so by the claim the sub-label should show `group/version`, which is
the whole string `/v1`; the code instead renders only the version
segment `v1` because the empty group fails the `group and
group.strip()` test of line 538. -/
theorem api_info_counterexample :
    (("/v1" : String).data.contains '/') = true ∧
    apiInfoOf (.str "/v1") = .ok (.str "v1") ∧
    ("v1" : String) ≠ "/v1" := by
  refine ⟨by decide, rfl, by decide⟩

/-- C8 (amended): with no slash the sub-label shows the bare
apiVersion string; with exactly one slash it shows `group/version`
when the group segment is non-empty and not all whitespace and just
the version segment otherwise; with two or more slashes the analyzer
raises ValueError (tuple unpacking of more than two fields) instead
of rendering anything. -/
theorem api_info_amended :
    (∀ s : String, s.data.contains '/' = false →
      apiInfoOf (.str s) = .ok (.str s)) ∧
    (∀ g v : List Char, g.contains '/' = false → v.contains '/' = false →
      apiInfoOf (.str ⟨g ++ '/' :: v⟩) =
        .ok (.str ⟨if !g.isEmpty && !(pyStripChars g).isEmpty
          then g ++ '/' :: v else v⟩)) ∧
    (∀ g rest : List Char, g.contains '/' = false → rest.contains '/' = true →
      apiInfoOf (.str ⟨g ++ '/' :: rest⟩) = .error .valueError) := by
  refine ⟨?_, ?_, ?_⟩
  · intro s h
    simp only [apiInfoOf, h]
    simp
  · intro g v hg hv
    simp only [apiInfoOf]
    rw [contains_append_sep '/' g v]
    rw [pySplit_sep_cons '/' g v hg, pySplit_no_sep '/' v hv]
    simp
  · intro g rest hg hr
    simp only [apiInfoOf]
    rw [contains_append_sep '/' g rest]
    rw [pySplit_sep_cons '/' g rest hg]
    obtain ⟨a, b, t, hab⟩ := pySplit_two_of_contains '/' rest hr
    rw [hab]
    simp

/-! ## Claim theorems: the directive body match -/

/-- Whenever the text decomposes as prefix, fence, remainder, the lazy
match succeeds. -/
theorem matchBodyLazy_isSome : ∀ s : List Char,
    (∃ b2 r2, s = b2 ++ fence ++ r2) → (matchBodyLazy s).isSome = true := by
  intro s
  induction s with
  | nil =>
    rintro ⟨b2, r2, hs⟩
    cases b2 with
    | nil => simp [fence] at hs
    | cons c b2t => simp at hs
  | cons c rest ih =>
    rintro ⟨b2, r2, hs⟩
    simp only [matchBodyLazy]
    by_cases hf : isFenceStart (c :: rest) = true
    · rw [if_pos hf]
      rfl
    · rw [if_neg hf]
      cases b2 with
      | nil =>
        exfalso
        apply hf
        simp only [List.nil_append, fence] at hs
        rw [show ([btick, btick, btick] : List Char) ++ r2 =
          btick :: btick :: btick :: r2 from rfl] at hs
        rw [hs]
        simp [isFenceStart]
      | cons c2 b2t =>
        simp only [List.cons_append, List.cons.injEq] at hs
        obtain ⟨_, hrest⟩ := hs
        have := ih ⟨b2t, r2, hrest⟩
        cases hm : matchBodyLazy rest with
        | none => rw [hm] at this; simp at this
        | some p =>
          obtain ⟨pb, pr⟩ := p
          rfl

/-- C10: the lazy body group consumes, from the character after the
directive head, the shortest prefix immediately followed by the
closing fence: every successful match decomposes the text as
body, fence, remainder with the body of minimal length (so a body
containing the fence sequence is cut at its first occurrence and the
remaining text stays outside the matched span), and a match succeeds
whenever such a decomposition exists. -/
theorem lazy_body_first_fence :
    (∀ s b r, matchBodyLazy s = some (b, r) →
      s = b ++ fence ++ r ∧
      ∀ b2 r2, s = b2 ++ fence ++ r2 → b.length ≤ b2.length) ∧
    (∀ b2 r2 : List Char,
      (matchBodyLazy (b2 ++ fence ++ r2)).isSome = true) := by
  constructor
  · intro s
    induction s with
    | nil => intro b r h; simp [matchBodyLazy] at h
    | cons c rest ih =>
      intro b r h
      simp only [matchBodyLazy] at h
      by_cases hf : isFenceStart (c :: rest) = true
      · rw [if_pos hf] at h
        cases rest with
        | nil => simp [isFenceStart] at hf
        | cons c2 rest2 =>
          cases rest2 with
          | nil => simp [isFenceStart] at hf
          | cons c3 rest3 =>
            simp only [isFenceStart, Bool.and_eq_true, decide_eq_true_eq] at hf
            obtain ⟨⟨hc, hc2⟩, hc3⟩ := hf
            simp only [Option.some.injEq, Prod.mk.injEq] at h
            obtain ⟨hb, hrr⟩ := h
            subst hb
            subst hc; subst hc2; subst hc3
            constructor
            · simp only [List.nil_append, fence]
              simp [← hrr, List.drop]
            · intro b2 r2 _
              simp
      · rw [if_neg hf] at h
        cases hm : matchBodyLazy rest with
        | none => rw [hm] at h; cases h
        | some p =>
          obtain ⟨b0, r0⟩ := p
          rw [hm] at h
          simp only [Option.some.injEq, Prod.mk.injEq] at h
          obtain ⟨hb, hrr⟩ := h
          subst hb
          subst hrr
          obtain ⟨hdec, hmin⟩ := ih b0 r0 hm
          constructor
          · rw [hdec]
            simp
          · intro b2 r2 hs
            cases b2 with
            | nil =>
              exfalso
              apply hf
              simp only [List.nil_append, fence] at hs
              rw [show ([btick, btick, btick] : List Char) ++ r2 =
                btick :: btick :: btick :: r2 from rfl] at hs
              rw [hs]
              simp [isFenceStart]
            | cons c2 b2t =>
              simp only [List.cons_append, List.cons.injEq] at hs
              obtain ⟨_, hrest⟩ := hs
              have := hmin b2t r2 hrest
              simp only [List.length_cons]
              omega
  · intro b2 r2
    exact matchBodyLazy_isSome (b2 ++ fence ++ r2) ⟨b2, r2, rfl⟩

/-! ## Witnesses -/

/-- Witness for the amended merge law at the duplicate-identity stream. -/
theorem merge_updates_every_match_witness :
    List.Forall₂ (fun r r2 =>
      (resourceMatches cmOverride r = .ok true ∧
        ∃ rm, r = YVal.map rm ∧ r2 = YVal.map (dictUpdate rm cmOverride)) ∨
      (resourceMatches cmOverride r = .ok false ∧ r2 = r))
      [cmDoc, cmDoc] [cmMerged, cmMerged] :=
  merge_updates_every_match [cmDoc, cmDoc] cmOverride [cmMerged, cmMerged] rfl

/-- Witness for the resolution-order law on an empty filesystem. -/
theorem resolution_order_witness :
    resolveDir [] (fun _ => false) ["/roots/a", "/roots/b"] "app" =
      resolveDirSpecOrder [] (fun _ => false) ["/roots/a", "/roots/b"] "app" ∧
    ("app" : String) = pyStrip "app" ∧
    replace_match emptyFsCtx "app" none "" = .ok (dirErrBlock (pyStrip "app")) :=
  ⟨resolution_order.1 [] (fun _ => false) ["/roots/a", "/roots/b"] "app",
   (resolution_order.2 emptyFsCtx "app" none "" "app" rfl).1.symm,
   (resolution_order.2 emptyFsCtx "app" none "" "app" rfl).2⟩

/-- Witness for the identity law at the specification scenario. -/
theorem no_override_no_analyze_identity_witness :
    pyStrip "" = "" ∧
    optGet (parseOptions none) "analyze" false = false ∧
    replace_match okCtx "path/to/app" none "" =
      .ok ("```yaml\n" ++ cmStdout ++ "\n```") :=
  ⟨rfl, rfl,
   no_override_no_analyze_identity okCtx "path/to/app" none "" "path/to/app"
     cmStdout rfl rfl rfl rfl⟩

/-- Witness for the no-match no-op law: a ConfigMap override against a
Service-only stream re-serializes the parsed stream unchanged. -/
theorem merge_nomatch_noop_witness :
    resourceMatches cmOverride svcDoc = .ok false ∧
    replace_match svcCtx "app" none "kind: X" = .ok (yamlBlock "DUMPED") := by
  have hnm : ∀ r ∈ [svcDoc], resourceMatches cmOverride r = .ok false := by
    intro r hr
    rw [List.mem_singleton] at hr
    subst hr
    rfl
  refine ⟨rfl, ?_⟩
  exact merge_nomatch_noop.2 svcCtx "app" none "kind: X" "app" cmStdout
    [svcDoc] cmOverride rfl rfl (by decide) rfl rfl rfl rfl hnm

/-- Witness for the single-match shallow merge at the specification
scenario: the whole data field is replaced, the sibling untouched. -/
theorem merge_single_match_shallow_witness :
    resourceMatches cmOverride (YVal.map cmDocData) = .ok true ∧
    mergeStream [YVal.map cmDocData, svcDoc] cmOverride =
      .ok [YVal.map (dictUpdate cmDocData cmOverride), svcDoc] ∧
    lookupStr "data" (dictUpdate cmDocData cmOverride) =
      some (.map [("k", .str "new")]) := by
  have hpre : ∀ r ∈ ([] : List YVal), resourceMatches cmOverride r = .ok false := by
    intro r hr
    simp at hr
  have hpost : ∀ r ∈ [svcDoc], resourceMatches cmOverride r = .ok false := by
    intro r hr
    rw [List.mem_singleton] at hr
    subst hr
    rfl
  have h := merge_single_match_shallow cmOverride [] cmDocData [svcDoc] hpre hpost rfl
  refine ⟨rfl, ?_, ?_⟩
  · simpa using h.1
  · rw [h.2.1 "data"]
    rfl

/-- Witness for the analyzer law: a three-entry input with one
non-mapping entry yields two rows with identifiers 1 and 2, and the
skipped entry does not surface an error. -/
theorem analyzer_row_identifiers_witness :
    analyzeRows [cmDoc, YVal.null, svcDoc] = .ok
      [ { apiInfo := YVal.str "v1", kind := YVal.str "ConfigMap",
          name := YVal.str "cm", nspace := YVal.str "",
          detailsId := "resource-1" },
        { apiInfo := YVal.str "v1", kind := YVal.str "Service",
          name := YVal.str "svc", nspace := YVal.str "",
          detailsId := "resource-2" } ] ∧
    ([ "resource-1", "resource-2" ] : List String).Nodup ∧
    isMapYVal YVal.null = false ∧
    analyzeRowsWith 1 [YVal.null, svcDoc] = analyzeRowsWith 1 [svcDoc] := by
  have h : analyzeRows [cmDoc, YVal.null, svcDoc] = .ok
      [ { apiInfo := YVal.str "v1", kind := YVal.str "ConfigMap",
          name := YVal.str "cm", nspace := YVal.str "",
          detailsId := "resource-1" },
        { apiInfo := YVal.str "v1", kind := YVal.str "Service",
          name := YVal.str "svc", nspace := YVal.str "",
          detailsId := "resource-2" } ] := rfl
  have h2 := (analyzer_row_identifiers.1 [cmDoc, YVal.null, svcDoc] _ h).2.2
  refine ⟨h, ?_, rfl, analyzer_row_identifiers.2 1 YVal.null [svcDoc] rfl⟩
  simp only [List.map] at h2
  exact h2

/-- Witness for the amended API-info law at `apps/v1`, a slash-free
version, and a double-slash value. -/
theorem api_info_amended_witness :
    (("v1" : String).data.contains '/' = false ∧
      apiInfoOf (.str "v1") = .ok (.str "v1")) ∧
    apiInfoOf (.str ⟨"apps".data ++ '/' :: "v1".data⟩) =
      .ok (.str ⟨if !("apps".data.isEmpty) && !((pyStripChars "apps".data).isEmpty)
        then "apps".data ++ '/' :: "v1".data else "v1".data⟩) ∧
    apiInfoOf (.str ⟨"a".data ++ '/' :: "b/c".data⟩) = .error .valueError :=
  ⟨⟨by decide, api_info_amended.1 "v1" (by decide)⟩,
   api_info_amended.2.1 "apps".data "v1".data (by decide) (by decide),
   api_info_amended.2.2 "a".data "b/c".data (by decide) (by decide)⟩

/-- Witness for the absent-identity match: an override holding only a
kind matches a stream document of that kind with no metadata. -/
theorem absent_identity_matches_witness :
    lookupStr "metadata" [("kind", YVal.str "Namespace")] = none ∧
    getMetaName [("kind", YVal.str "Namespace"), ("x", YVal.int 1)] = .ok none ∧
    pyEqOpt (lookupStr "kind" [("kind", YVal.str "Namespace")])
      (lookupStr "kind" [("kind", YVal.str "Namespace"), ("x", YVal.int 1)]) = true ∧
    resourceMatches [("kind", YVal.str "Namespace")]
      (YVal.map [("kind", YVal.str "Namespace"), ("x", YVal.int 1)]) = .ok true :=
  ⟨rfl, rfl, rfl,
   (absent_identity_matches [("kind", YVal.str "Namespace")]
     [("kind", YVal.str "Namespace"), ("x", YVal.int 1)] rfl rfl rfl).1⟩

/-- Witness for the lazy body match: a body containing the fence is
cut at its first occurrence, and the earliest decomposition is
minimal. -/
theorem lazy_body_first_fence_witness :
    matchBodyLazy ("ab```cd```x".data) = some ("ab".data, "cd```x".data) ∧
    "ab```cd```x".data = "ab".data ++ fence ++ "cd```x".data ∧
    ("ab".data).length ≤ ("ab```cd".data).length := by
  have h : matchBodyLazy ("ab```cd```x".data) =
      some ("ab".data, "cd```x".data) := by decide
  have h2 := lazy_body_first_fence.1 ("ab```cd```x".data) ("ab".data) ("cd```x".data) h
  exact ⟨h, h2.1, h2.2 ("ab```cd".data) ("x".data) (by decide)⟩

end MkdocsKustomize
